import Mathlib

set_option autoImplicit false

/-
Shallow embedding of the job orchestration core of tavlicon/svelte-nodes:
  backend/app/runtime/jobs.py    (JobStore, JobRecord, JobEvent)
  backend/app/runtime/queue.py   (JobQueueManager)
  backend/app/runtime/events.py  (sse_event_stream)
  backend/app/api/routes_jobs.py (create job routes, queue-full failure path)
Python wall-clock timestamps are passed in explicitly as `now : Int`;
opaque dict payloads (job payload, result, event data) are modelled as
opaque strings, since no verified property inspects their structure.
-/

namespace SvelteNodes

/-- JobType literal from jobs.py: "img2img" or "triposr". -/
inductive JobType
  | img2img
  | triposr
deriving DecidableEq, Repr

/-- JobStatus literal from jobs.py. -/
inductive JobStatus
  | queued
  | running
  | succeeded
  | failed
  | cancelled
deriving DecidableEq, Repr

/-- JobProgress dataclass from jobs.py; percent is a Python float computed
as current/total*100, modelled exactly as a rational. -/
structure JobProgress where
  current : Int := 0
  total : Int := 0
  percent : ℚ := 0
  stage : String := ""
deriving DecidableEq, Repr

/-- JobError dataclass from jobs.py. -/
structure JobError where
  message : String
deriving DecidableEq, Repr

/-- JobEvent dataclass from jobs.py; `data` is the opaque dict payload. -/
structure JobEvent where
  event : String
  data : String := ""
  ts : Int := 0
deriving DecidableEq, Repr

/-- JobRecord dataclass from jobs.py. The asyncio.Event `done` is modelled
by its set/unset flag; `payload` and `result` dicts are opaque strings. -/
structure JobRecord where
  job_id : String
  type : JobType
  status : JobStatus
  created_at : Int
  started_at : Option Int := none
  ended_at : Option Int := none
  progress : JobProgress := {}
  result : Option String := none
  error : Option JobError := none
  payload : String := ""
  cancel_requested : Bool := false
  done : Bool := false
deriving DecidableEq, Repr

/-- Record-field update performed by JobStore.set_running (jobs.py lines
123-127): unconditionally sets status to running and overwrites started_at
with the current time; no guard on the previous status. -/
def setRunningRec (now : Int) (r : JobRecord) : JobRecord :=
  { r with status := .running, started_at := some now }

/-- Percent computation from JobStore.set_progress (jobs.py line 134):
`(current / total * 100.0) if total else 0.0`. Python int truthiness means
any nonzero total (also negative) takes the division branch. -/
def percentOf (current total : Int) : ℚ :=
  if total ≠ 0 then (current : ℚ) / (total : ℚ) * 100 else 0

/-- Record-field update performed by JobStore.set_progress (jobs.py lines
129-134): overwrites current, total, stage and the derived percent. -/
def setProgressRec (current total : Int) (stage : String) (r : JobRecord) : JobRecord :=
  { r with progress :=
      { current := current, total := total, stage := stage,
        percent := percentOf current total } }

/-- Record-field update performed by JobStore.succeed (jobs.py lines
146-151): unconditionally sets status, ended_at, result and the done event;
no guard against an already-terminal status. -/
def succeedRec (now : Int) (result : String) (r : JobRecord) : JobRecord :=
  { r with status := .succeeded, ended_at := some now,
           result := some result, done := true }

/-- Record-field update performed by JobStore.fail (jobs.py lines 201-206):
unconditionally sets status, ended_at, error and the done event; the result
field of an earlier succeed call is not cleared. -/
def failRec (now : Int) (message : String) (r : JobRecord) : JobRecord :=
  { r with status := .failed, ended_at := some now,
           error := some ⟨message⟩, done := true }

/-- Record-field update performed by JobStore.cancel (jobs.py lines
209-215): always sets cancel_requested; transitions to cancelled only from
queued. -/
def cancelRec (now : Int) (r : JobRecord) : JobRecord :=
  let r1 := { r with cancel_requested := true }
  if r1.status = .queued then
    { r1 with status := .cancelled, ended_at := some now, done := true }
  else r1

/-- Terminal statuses, as enumerated in JobStore.cleanup_expired:
("succeeded", "failed", "cancelled"). -/
def isTerminal : JobStatus → Bool
  | .succeeded => true
  | .failed => true
  | .cancelled => true
  | _ => false

/- Lane queues and worker loops (backend/app/runtime/queue.py). -/

/-- QueueLimits dataclass from queue.py. -/
structure QueueLimits where
  max_sd_queued : Nat := 10
  max_triposr_queued : Nat := 10
deriving DecidableEq, Repr

/-- Outcome of `await queue.put(job_id)` on an asyncio.Queue with a
maxsize: the item is appended when a slot is free, otherwise the caller is
suspended until space frees (asyncio.Queue.put does not raise QueueFull). -/
inductive EnqueueOutcome
  | inserted (q : List String)
  | suspends
deriving DecidableEq, Repr

/-- Semantics of `await self._sd_queue.put(job_id)` (queue.py lines 45-51)
on a bounded asyncio.Queue holding `q`. -/
def queuePut (maxsize : Nat) (q : List String) (jid : String) : EnqueueOutcome :=
  if q.length < maxsize then .inserted (q ++ [jid]) else .suspends

/-- JobQueueManager.enqueue (queue.py lines 45-51): dispatches on the job
type to the lane's bounded queue and awaits put. JobType is a closed
enumeration, so the ValueError branch for unknown types is unreachable. -/
def enqueue (limits : QueueLimits) (sdq tq : List String) (jid : String) :
    JobType → EnqueueOutcome
  | .img2img => queuePut limits.max_sd_queued sdq jid
  | .triposr => queuePut limits.max_triposr_queued tq jid

/-- Result of one executor invocation: normal return or a raised exception
escaping the executor. -/
inductive ExecOutcome
  | ok
  | raises (msg : String)
deriving DecidableEq, Repr

/-- Observable outcome of running a lane worker loop over a queue of
pending job ids: which jobs the executor was invoked on, how many
task_done calls were made, and the exception that escaped the loop, if
any. -/
structure WorkerRun where
  invoked : List String
  taskDoneCount : Nat
  crashed : Option String
deriving DecidableEq, Repr

/-- JobQueueManager._sd_worker_loop (queue.py lines 53-59), run against a
finite list of pending queue items. The body is
`try: await execute(job_id) finally: task_done()` with no except clause:
task_done always runs, but a raised exception propagates out of the while
loop and terminates the worker task, leaving later items unprocessed. -/
def sdWorkerLoop (ex : String → ExecOutcome) : List String → WorkerRun
  | [] => ⟨[], 0, none⟩
  | j :: rest =>
      match ex j with
      | .ok =>
          let r := sdWorkerLoop ex rest
          ⟨j :: r.invoked, r.taskDoneCount + 1, r.crashed⟩
      | .raises m => ⟨[j], 1, some m⟩

/- JobStore state (backend/app/runtime/jobs.py). The three dicts keyed by
job_id are modelled as association lists; every mutation below happens
under the store's single asyncio.Lock in the source, so each operation is
one atomic state transformation here. Subscriber queues are unbounded
asyncio.Queues, modelled as the list of events put into each queue. -/

/-- Lookup in an association list keyed by job id (dict access). -/
def alistLookup {α : Type} (k : String) : List (String × α) → Option α
  | [] => none
  | p :: tl => if p.1 == k then some p.2 else alistLookup k tl

/-- Pointwise update of the entry with key `k` (in-place dict mutation). -/
def alistUpdate {α : Type} (k : String) (f : α → α) (l : List (String × α)) :
    List (String × α) :=
  l.map (fun p => if p.1 == k then (p.1, f p.2) else p)

/-- JobStore fields: ttl_seconds, max_events_per_job, _jobs, _subscribers,
_event_history. -/
structure StoreState where
  ttl_seconds : Int := 60 * 60
  max_events_per_job : Nat := 200
  jobs : List (String × JobRecord) := []
  subscribers : List (String × List (List JobEvent)) := []
  event_history : List (String × List JobEvent) := []
deriving DecidableEq, Repr

/-- JobStore.get (jobs.py lines 82-86): KeyError on an unknown id,
modelled as Except.error carrying the offending id. -/
def get (st : StoreState) (jid : String) : Except String JobRecord :=
  match alistLookup jid st.jobs with
  | some r => .ok r
  | none => .error jid

/-- JobStore.list_events_snapshot (jobs.py lines 88-90): a copy of the
buffered history, empty when the id is unknown (dict .get default). -/
def list_events_snapshot (st : StoreState) (jid : String) : List JobEvent :=
  (alistLookup jid st.event_history).getD []

/-- JobStore.subscribe (jobs.py lines 92-98): KeyError on an unknown id,
otherwise registers a fresh empty queue for the job and returns it (here:
its index among the job's queues). -/
def subscribe (st : StoreState) (jid : String) :
    Except String (StoreState × Nat) :=
  match alistLookup jid st.jobs with
  | none => .error jid
  | some _ =>
      let qIdx := ((alistLookup jid st.subscribers).getD []).length
      .ok ({ st with
              subscribers := alistUpdate jid (fun qs => qs ++ [[]]) st.subscribers },
           qIdx)

/-- History cap from JobStore.emit (jobs.py lines 112-115): append, then
`if len(hist) > max: del hist[: len(hist) - max]`. -/
def emitHist (maxEvents : Nat) (hist : List JobEvent) (ev : JobEvent) :
    List JobEvent :=
  let h := hist ++ [ev]
  if h.length > maxEvents then h.drop (h.length - maxEvents) else h

/-- JobStore.emit (jobs.py lines 107-121): silently returns when the job id
is unknown; otherwise appends to the capped history and puts the event on
every subscriber queue. put_nowait on an unbounded asyncio.Queue never
raises, so the QueueFull drop branch is unreachable. -/
def emit (st : StoreState) (jid : String) (ev : JobEvent) : StoreState :=
  match alistLookup jid st.jobs with
  | none => st
  | some _ =>
      { st with
        event_history :=
          alistUpdate jid (fun h => emitHist st.max_events_per_job h ev)
            st.event_history,
        subscribers :=
          alistUpdate jid (fun qs => qs.map (fun q => q ++ [ev]))
            st.subscribers }

/-- Apply a record update to the stored record of `jid` (the in-place
mutation of the JobRecord obtained from self.get). -/
def updateJob (st : StoreState) (jid : String) (f : JobRecord → JobRecord) :
    StoreState :=
  { st with jobs := alistUpdate jid f st.jobs }

/-- JobStore.create (jobs.py lines 66-80): registers the fresh record,
empty subscriber set and empty history, then emits the queued event. The
uuid4 id is modelled as a caller-supplied fresh id. -/
def create (now : Int) (jid : String) (jt : JobType) (payload : String)
    (st : StoreState) : StoreState × JobRecord :=
  let r : JobRecord :=
    { job_id := jid, type := jt, status := .queued, created_at := now,
      payload := payload }
  let st1 : StoreState :=
    { st with jobs := st.jobs ++ [(jid, r)],
              subscribers := st.subscribers ++ [(jid, [])],
              event_history := st.event_history ++ [(jid, [])] }
  (emit st1 jid { event := "queued", data := "status=queued", ts := now }, r)

/-- JobStore.set_running (jobs.py lines 123-127): get, mutate, emit
started. -/
def set_running (now : Int) (st : StoreState) (jid : String) :
    Except String StoreState :=
  match get st jid with
  | .error e => .error e
  | .ok _ =>
      .ok (emit (updateJob st jid (setRunningRec now)) jid
            { event := "started", data := "status=running", ts := now })

/-- JobStore.succeed (jobs.py lines 146-152): get, mutate, emit completed.
The debug-logging region is wrapped in try/except and has no effect on
store state. -/
def succeed (now : Int) (st : StoreState) (jid : String) (result : String) :
    Except String StoreState :=
  match get st jid with
  | .error e => .error e
  | .ok _ =>
      .ok (emit (updateJob st jid (succeedRec now result)) jid
            { event := "completed", data := result, ts := now })

/-- JobStore.fail (jobs.py lines 201-207): get, mutate, emit failed. -/
def fail (now : Int) (st : StoreState) (jid : String) (message : String) :
    Except String StoreState :=
  match get st jid with
  | .error e => .error e
  | .ok _ =>
      .ok (emit (updateJob st jid (failRec now message)) jid
            { event := "failed", data := message, ts := now })

/-- JobStore.cancel (jobs.py lines 209-216): always sets the flag; emits
cancelled only when the job was still queued. -/
def cancel (now : Int) (st : StoreState) (jid : String) :
    Except String StoreState :=
  match get st jid with
  | .error e => .error e
  | .ok r =>
      if r.status = .queued then
        .ok (emit (updateJob st jid (cancelRec now)) jid
              { event := "cancelled", data := "status=cancelled", ts := now })
      else
        .ok (updateJob st jid (cancelRec now))

/-- Expiry test from JobStore.cleanup_expired (jobs.py lines 230-233):
terminal status, ended_at set, and now - ended_at > ttl. -/
def isExpiredJob (now ttl : Int) (r : JobRecord) : Bool :=
  isTerminal r.status &&
    (match r.ended_at with
     | some e => decide (now - e > ttl)
     | none => false)

/-- JobStore.cleanup_expired (jobs.py lines 226-238): collects the ids of
expired terminal jobs, pops each from the jobs, subscribers and history
dicts, and returns how many were removed. -/
def cleanup_expired (now : Int) (st : StoreState) : StoreState × Nat :=
  let removed :=
    (st.jobs.filter (fun p => isExpiredJob now st.ttl_seconds p.2)).map Prod.fst
  ({ st with
      jobs := st.jobs.filter (fun p => !(removed.contains p.1)),
      subscribers := st.subscribers.filter (fun p => !(removed.contains p.1)),
      event_history := st.event_history.filter (fun p => !(removed.contains p.1)) },
   removed.length)

/- SSE streaming (backend/app/runtime/events.py, sse_event_stream). -/

/-- A sequence of emits for one job, each a separate lock acquisition. -/
def emitSeq (st : StoreState) (jid : String) (evs : List JobEvent) :
    StoreState :=
  evs.foldl (fun s e => emit s jid e) st

/-- Contents of the subscriber queue registered at index `i` for `jid`. -/
def subscriberQueue (st : StoreState) (jid : String) (i : Nat) :
    List JobEvent :=
  (((alistLookup jid st.subscribers).getD [])[i]?).getD []

/-- sse_event_stream (events.py lines 12-28) interleaved with a producer:
first `list_events_snapshot` is taken (one lock acquisition) and yielded;
`window` is the list of events the producer emits before the generator
resumes; then `subscribe` runs (a second lock acquisition); then the
producer emits `live` and the consumer drains its queue. The value is the
full sequence the consumer receives. -/
def sseDelivered (st0 : StoreState) (jid : String)
    (window live : List JobEvent) : List JobEvent :=
  let snap := list_events_snapshot st0 jid
  let st1 := emitSeq st0 jid window
  match subscribe st1 jid with
  | .error _ => snap
  | .ok (st2, qIdx) => snap ++ subscriberQueue (emitSeq st2 jid live) jid qIdx

/- Status-transition protocol. The store methods themselves do not guard
the source status (set_running, succeed and fail overwrite it
unconditionally); which methods are invoked in which status is decided by
the callers. -/

/-- One store-method invocation on a single job, with its timestamp or
arguments. -/
inductive ProtoOp
  | startOp (t : Int)
  | progressOp (current total : Int) (stage : String)
  | succeedOp (t : Int) (result : String)
  | failOp (t : Int) (message : String)
  | cancelOp (t : Int)
deriving DecidableEq, Repr

/-- Modelled from the spec: the executors wired into JobQueueManager are
not part of this repository snapshot (no caller of set_running or succeed
exists under the backend sources); the spec's executor contract has each
executor call set_running once on its queued job, set_progress only while
running, and exactly one of succeed/fail from running. fail is additionally
invoked on a still-queued job by the create routes when enqueue raises
(routes_jobs.py lines 84-89), and cancel may arrive at any time. -/
def opAllowed (s : JobStatus) : ProtoOp → Bool
  | .startOp _ => s == .queued
  | .progressOp _ _ _ => s == .running
  | .succeedOp _ _ => s == .running
  | .failOp _ _ => s == .running || s == .queued
  | .cancelOp _ => true

/-- The record update each protocol operation performs, from jobs.py. -/
def applyOp (r : JobRecord) : ProtoOp → JobRecord
  | .startOp t => setRunningRec t r
  | .progressOp c tot stg => setProgressRec c tot stg r
  | .succeedOp t res => succeedRec t res r
  | .failOp t m => failRec t m r
  | .cancelOp t => cancelRec t r

/-- The status edges named by the spec's state machine:
queued to running to succeeded or failed, and queued to cancelled. -/
def claimEdges : List (JobStatus × JobStatus) :=
  [(.queued, .running), (.running, .succeeded), (.running, .failed),
   (.queued, .cancelled)]

/-- The edges the code actually exhibits: the spec's edges plus the direct
queued-to-failed transition taken by the create routes when the lane queue
rejects the job. -/
def amendedEdges : List (JobStatus × JobStatus) :=
  claimEdges ++ [(.queued, .failed)]

/-- Status of the stored record of `jid`, when present. -/
def jobStatus (st : StoreState) (jid : String) : Option JobStatus :=
  (alistLookup jid st.jobs).map (·.status)

/-- Status of the stored record of `jid` after a fallible store call. -/
def exceptStatus (e : Except String StoreState) (jid : String) :
    Option JobStatus :=
  match e with
  | .ok st => jobStatus st jid
  | .error _ => none

/- Concrete fixtures used to evaluate the definitions. -/

/-- A freshly created queued record, as built by JobStore.create. -/
def recQ : JobRecord :=
  { job_id := "a", type := .img2img, status := .queued, created_at := 0 }

/-- An executor that raises on job a and returns normally otherwise. -/
def exC1 : String → ExecOutcome :=
  fun j => if j = "a" then .raises "boom" else .ok

/-- A saturated SD lane queue at the default capacity of 10. -/
def fullSdQ : List String := List.replicate 10 "j"

/-- Store after creating job a in a fresh store. -/
def stW : StoreState := (create 0 "a" .img2img "p" {}).1

/-- Store with max_events_per_job 1 after creating job a. -/
def stCap1 : StoreState :=
  (create 0 "a" .img2img "p" { max_events_per_job := 1 }).1

/-- A terminal succeeded record whose ended_at is long past. -/
def oldRec : JobRecord :=
  { job_id := "old", type := .img2img, status := .succeeded,
    created_at := 0, ended_at := some 0 }

/-- A record still running at cleanup time. -/
def freshRec : JobRecord :=
  { job_id := "new", type := .img2img, status := .running, created_at := 0 }

/-- A store holding one expired terminal job and one running job, at the
default ttl of 3600 seconds. -/
def stC9 : StoreState :=
  { jobs := [("old", oldRec), ("new", freshRec)] }

/- Helper lemmas about the association-list store representation. -/

theorem alistLookup_update_self {α : Type} (k : String) (f : α → α)
    (l : List (String × α)) :
    alistLookup k (alistUpdate k f l) = (alistLookup k l).map f := by
  induction l with
  | nil => rfl
  | cons p tl ih =>
      by_cases h : p.1 == k
      · simp [alistLookup, alistUpdate, h]
      · simp only [alistUpdate, List.map_cons, if_neg h]
        simp only [alistLookup, if_neg h]
        exact ih

theorem emit_jobs (st : StoreState) (jid : String) (ev : JobEvent) :
    (emit st jid ev).jobs = st.jobs := by
  cases h : alistLookup jid st.jobs <;> simp [emit, h]

theorem emit_subscribers_lookup (st : StoreState) (jid : String)
    (ev : JobEvent) (r : JobRecord) (hj : alistLookup jid st.jobs = some r) :
    alistLookup jid (emit st jid ev).subscribers
      = (alistLookup jid st.subscribers).map
          (fun qs => qs.map (fun q => q ++ [ev])) := by
  simp [emit, hj, alistLookup_update_self]

theorem emitSeq_jobs (jid : String) (evs : List JobEvent) :
    ∀ st : StoreState, (emitSeq st jid evs).jobs = st.jobs := by
  induction evs with
  | nil => intro st; rfl
  | cons e tl ih =>
      intro st
      have h1 : emitSeq st jid (e :: tl) = emitSeq (emit st jid e) jid tl := rfl
      rw [h1, ih, emit_jobs]

theorem emitSeq_subscribers_isSome (jid : String) (evs : List JobEvent) :
    ∀ (st : StoreState) (qs : List (List JobEvent)),
    alistLookup jid st.subscribers = some qs →
    ∃ qs1, alistLookup jid (emitSeq st jid evs).subscribers = some qs1 := by
  induction evs with
  | nil => intro st qs hs; exact ⟨qs, hs⟩
  | cons e tl ih =>
      intro st qs hs
      have h1 : emitSeq st jid (e :: tl) = emitSeq (emit st jid e) jid tl := rfl
      rw [h1]
      cases hj : alistLookup jid st.jobs with
      | none =>
          have : emit st jid e = st := by simp [emit, hj]
          rw [this]
          exact ih st qs hs
      | some r =>
          have h2 := emit_subscribers_lookup st jid e r hj
          rw [hs] at h2
          exact ih _ _ h2

theorem emitSeq_subscriberQueue (jid : String) (evs : List JobEvent) :
    ∀ (st : StoreState) (r : JobRecord) (qs : List (List JobEvent)) (i : Nat)
      (q : List JobEvent),
    alistLookup jid st.jobs = some r →
    alistLookup jid st.subscribers = some qs →
    qs[i]? = some q →
    ∃ qs2, alistLookup jid (emitSeq st jid evs).subscribers = some qs2 ∧
      qs2[i]? = some (q ++ evs) := by
  induction evs with
  | nil => intro st r qs i q _ hs hq; exact ⟨qs, hs, by simpa using hq⟩
  | cons e tl ih =>
      intro st r qs i q hj hs hq
      have h1 : emitSeq st jid (e :: tl) = emitSeq (emit st jid e) jid tl := rfl
      rw [h1]
      have hj1 : alistLookup jid (emit st jid e).jobs = some r := by
        rw [emit_jobs]; exact hj
      have hs1 : alistLookup jid (emit st jid e).subscribers
          = some (qs.map (fun q0 => q0 ++ [e])) := by
        rw [emit_subscribers_lookup st jid e r hj, hs]; rfl
      have hq1 : (qs.map (fun q0 => q0 ++ [e]))[i]? = some (q ++ [e]) := by
        simp [List.getElem?_map, hq]
      have h2 := ih (emit st jid e) r _ i (q ++ [e]) hj1 hs1 hq1
      simpa using h2

theorem emitHist_length_le (N : Nat) (hist : List JobEvent) (ev : JobEvent)
    (h : hist.length ≤ N) : (emitHist N hist ev).length ≤ N := by
  unfold emitHist
  by_cases h1 : (hist ++ [ev]).length > N
  · simp only [if_pos h1, List.length_drop]
    omega
  · simp only [if_neg h1]
    omega

theorem emitHist_foldl (N : Nat) (evs : List JobEvent) :
    ∀ acc : List JobEvent, acc.length ≤ N →
    List.foldl (emitHist N) acc evs
      = (acc ++ evs).drop (acc.length + evs.length - N) := by
  induction evs with
  | nil =>
      intro acc h
      simp [Nat.sub_eq_zero_of_le h]
  | cons e tl ih =>
      intro acc h
      have hfold : List.foldl (emitHist N) acc (e :: tl)
          = List.foldl (emitHist N) (emitHist N acc e) tl := rfl
      rw [hfold, ih (emitHist N acc e) (emitHist_length_le N acc e h)]
      by_cases h1 : acc.length + 1 ≤ N
      · have hkeep : emitHist N acc e = acc ++ [e] := by
          unfold emitHist
          rw [if_neg]
          simp only [List.length_append, List.length_cons, List.length_nil]
          omega
        rw [hkeep]
        have hlen : (acc ++ [e]).length = acc.length + 1 := by simp
        rw [hlen, List.append_assoc]
        have harith : acc.length + 1 + tl.length - N
            = acc.length + (e :: tl).length - N := by
          simp only [List.length_cons]
          omega
        rw [harith]
        rfl
      · have hN : acc.length = N := by omega
        have hdropped : emitHist N acc e = (acc ++ [e]).drop 1 := by
          unfold emitHist
          rw [if_pos]
          · congr 1
            simp only [List.length_append, List.length_cons, List.length_nil]
            omega
          · simp only [List.length_append, List.length_cons, List.length_nil]
            omega
        have hlen1 : (emitHist N acc e).length = N := by
          rw [hdropped]
          simp only [List.length_drop, List.length_append, List.length_cons,
            List.length_nil]
          omega
        rw [hlen1, hdropped]
        have hle : 1 ≤ (acc ++ [e]).length := by simp
        have hsplit : (acc ++ [e]).drop 1 ++ tl = ((acc ++ [e]) ++ tl).drop 1 :=
          (List.drop_append_of_le_length hle).symm
        rw [hsplit, List.drop_drop]
        have harith2 : 1 + (N + tl.length - N) = acc.length + (e :: tl).length - N := by
          simp only [List.length_cons]
          omega
        rw [List.append_assoc, harith2]
        rfl

theorem assoc_keys_unique {α : Type} :
    ∀ {l : List (String × α)}, (l.map Prod.fst).Nodup →
    ∀ {k : String} {a b : α}, (k, a) ∈ l → (k, b) ∈ l → a = b := by
  intro l
  induction l with
  | nil => intro _ k a b ha; cases ha
  | cons p tl ih =>
      intro hnd k a b ha hb
      rw [List.map_cons, List.nodup_cons] at hnd
      rcases List.mem_cons.mp ha with ha1 | ha1 <;>
        rcases List.mem_cons.mp hb with hb1 | hb1
      · exact (Prod.ext_iff.mp (ha1.trans hb1.symm)).2
      · exfalso
        apply hnd.1
        rw [← ha1]
        exact List.mem_map.mpr ⟨(k, b), hb1, rfl⟩
      · exfalso
        apply hnd.1
        rw [← hb1]
        exact List.mem_map.mpr ⟨(k, a), ha1, rfl⟩
      · exact ih hnd.2 ha1 hb1

/- Claim theorems. -/

/-- Claim C1: the claim says an exception raised by the lane executor does
not terminate the worker loop. The code of _sd_worker_loop has try/finally
with no except clause, so the exception propagates: with an executor that
raises on job a, the loop invokes the executor on a only, still calls
task_done once (finally), crashes with the exception, and never processes
the queued job b; a non-raising executor processes both. -/
theorem worker_loop_dies_on_executor_exception :
    sdWorkerLoop exC1 ["a", "b"] = ⟨["a"], 1, some "boom"⟩ ∧
    "b" ∉ (sdWorkerLoop exC1 ["a", "b"]).invoked ∧
    sdWorkerLoop (fun _ => .ok) ["a", "b"] = ⟨["a", "b"], 2, none⟩ := by
  refine ⟨rfl, ?_, rfl⟩
  decide

/-- Claim C2 counterexample: the claim says enqueue on a saturated lane
returns immediately with a QueueFull error and never blocks. The code
awaits asyncio.Queue.put, which suspends the caller when the queue is at
capacity: at the default SD lane capacity of 10 with 10 queued ids, the
outcome is a suspension, not an error return. -/
theorem enqueue_full_lane_suspends_cex :
    enqueue {} fullSdQ [] "new" .img2img = .suspends := by decide

/-- Claim C2 amended: enqueue inserts without suspending while the lane is
below capacity, and suspends the caller (until space frees) when the lane
is saturated; it never raises QueueFull. -/
theorem enqueue_suspends_iff_full (limits : QueueLimits) (sdq tq : List String)
    (jid : String) :
    (sdq.length < limits.max_sd_queued →
        enqueue limits sdq tq jid .img2img = .inserted (sdq ++ [jid])) ∧
    (¬ sdq.length < limits.max_sd_queued →
        enqueue limits sdq tq jid .img2img = .suspends) ∧
    (tq.length < limits.max_triposr_queued →
        enqueue limits sdq tq jid .triposr = .inserted (tq ++ [jid])) ∧
    (¬ tq.length < limits.max_triposr_queued →
        enqueue limits sdq tq jid .triposr = .suspends) := by
  refine ⟨?_, ?_, ?_, ?_⟩ <;> intro h <;> simp [enqueue, queuePut, h]

/-- Claim C2 amended, witness at concrete inputs: a lane with 9 of 10
slots used accepts the id; the saturated lane suspends. -/
theorem enqueue_suspends_iff_full_witness :
    (List.replicate 9 "j").length < ({} : QueueLimits).max_sd_queued ∧
    enqueue {} (List.replicate 9 "j") [] "x" .img2img
      = .inserted (List.replicate 9 "j" ++ ["x"]) ∧
    ¬ fullSdQ.length < ({} : QueueLimits).max_sd_queued ∧
    enqueue {} fullSdQ [] "x" .img2img = .suspends := by
  refine ⟨by decide, ?_, by decide, ?_⟩
  · exact (enqueue_suspends_iff_full {} (List.replicate 9 "j") [] "x").1 (by decide)
  · exact (enqueue_suspends_iff_full {} fullSdQ [] "x").2.1 (by decide)

/-- Claim C4 counterexample: the claim says a second terminal call has no
effect. Calling succeed at time 1 and then fail at time 2 on the same
record changes status from succeeded to failed and overwrites ended_at,
so the second call does have an effect. -/
theorem second_terminal_call_changes_record_cex :
    (succeedRec 1 "r1" recQ).status = .succeeded ∧
    (succeedRec 1 "r1" recQ).ended_at = some 1 ∧
    (failRec 2 "boom" (succeedRec 1 "r1" recQ)).status = .failed ∧
    (failRec 2 "boom" (succeedRec 1 "r1" recQ)).ended_at = some 2 ∧
    failRec 2 "boom" (succeedRec 1 "r1" recQ) ≠ succeedRec 1 "r1" recQ := by
  refine ⟨rfl, rfl, rfl, rfl, ?_⟩
  decide

/-- Claim C4 amended: succeed and fail are not guarded against an
already-terminal job; a second terminal call re-applies the transition,
overwriting status and ended_at (and result or error), while fields set by
the other terminal call are left in place rather than cleared. -/
theorem terminal_reapply_semantics (r : JobRecord) (t1 t2 : Int)
    (res res2 m : String) :
    (failRec t2 m (succeedRec t1 res r)).status = .failed ∧
    (failRec t2 m (succeedRec t1 res r)).ended_at = some t2 ∧
    (failRec t2 m (succeedRec t1 res r)).result = some res ∧
    (failRec t2 m (succeedRec t1 res r)).error = some ⟨m⟩ ∧
    (succeedRec t2 res (failRec t1 m r)).status = .succeeded ∧
    (succeedRec t2 res (failRec t1 m r)).ended_at = some t2 ∧
    (succeedRec t2 res (failRec t1 m r)).error = some ⟨m⟩ ∧
    (succeedRec t2 res2 (succeedRec t1 res r)).ended_at = some t2 ∧
    (succeedRec t2 res2 (succeedRec t1 res r)).result = some res2 :=
  ⟨rfl, rfl, rfl, rfl, rfl, rfl, rfl, rfl, rfl⟩

/-- Claim C7 counterexample: the claim says a second set_running call does
not overwrite the already-set started_at. The code assigns started_at
unconditionally: after set_running at time 1 and again at time 2, the
stored started_at is 2, not 1. -/
theorem set_running_overwrites_started_at_cex :
    (setRunningRec 1 recQ).started_at = some 1 ∧
    (setRunningRec 2 (setRunningRec 1 recQ)).started_at = some 2 ∧
    (setRunningRec 2 (setRunningRec 1 recQ)).started_at ≠ some 1 := by
  refine ⟨rfl, rfl, ?_⟩
  decide

/-- Claim C7 amended: a second set_running overwrites started_at with the
new time and re-sets status to running; every other field of the record is
unchanged by the repeated call. -/
theorem set_running_reapply_frame (r : JobRecord) (t1 t2 : Int) :
    (setRunningRec t2 (setRunningRec t1 r)).started_at = some t2 ∧
    (setRunningRec t2 (setRunningRec t1 r)).status = .running ∧
    (setRunningRec t2 (setRunningRec t1 r)).job_id = r.job_id ∧
    (setRunningRec t2 (setRunningRec t1 r)).type = r.type ∧
    (setRunningRec t2 (setRunningRec t1 r)).created_at = r.created_at ∧
    (setRunningRec t2 (setRunningRec t1 r)).ended_at = r.ended_at ∧
    (setRunningRec t2 (setRunningRec t1 r)).progress = r.progress ∧
    (setRunningRec t2 (setRunningRec t1 r)).result = r.result ∧
    (setRunningRec t2 (setRunningRec t1 r)).error = r.error ∧
    (setRunningRec t2 (setRunningRec t1 r)).payload = r.payload ∧
    (setRunningRec t2 (setRunningRec t1 r)).cancel_requested = r.cancel_requested ∧
    (setRunningRec t2 (setRunningRec t1 r)).done = r.done :=
  ⟨rfl, rfl, rfl, rfl, rfl, rfl, rfl, rfl, rfl, rfl, rfl, rfl⟩

/-- Claim C8: set_progress never divides when total is zero (Python int
truthiness guards the division), storing percent 0; for nonzero total the
stored percent is current divided by total times 100. -/
theorem set_progress_percent_total_zero (r : JobRecord) (c t : Int)
    (stg : String) :
    (t = 0 → (setProgressRec c t stg r).progress.percent = 0) ∧
    (t ≠ 0 →
        (setProgressRec c t stg r).progress.percent = (c : ℚ) / (t : ℚ) * 100) := by
  constructor
  · intro h
    simp [setProgressRec, percentOf, h]
  · intro h
    simp [setProgressRec, percentOf, h]

/-- Claim C8 witness: at total 0 the stored percent is 0; at current 3 of
total 4 it is 75. -/
theorem set_progress_percent_total_zero_witness :
    (setProgressRec 3 0 "s" recQ).progress.percent = 0 ∧
    (setProgressRec 3 4 "s" recQ).progress.percent = 75 := by
  constructor
  · exact (set_progress_percent_total_zero recQ 3 0 "s").1 rfl
  · have h := (set_progress_percent_total_zero recQ 3 4 "s").2 (by decide)
    rw [h]
    norm_num

/-- Claim C10: emit on a job id that is unknown or already evicted returns
silently and leaves the store unchanged, while get and subscribe raise
KeyError (modelled as an error result) on the same id. -/
theorem emit_unknown_id_noop (st : StoreState) (jid : String) (ev : JobEvent)
    (h : alistLookup jid st.jobs = none) :
    emit st jid ev = st ∧
    get st jid = .error jid ∧
    subscribe st jid = .error jid := by
  refine ⟨?_, ?_, ?_⟩ <;> simp [emit, get, subscribe, h]

/-- Claim C10 witness: on the empty store and id ghost, emit is the
identity and get and subscribe fail. -/
theorem emit_unknown_id_noop_witness :
    alistLookup "ghost" ({} : StoreState).jobs = none ∧
    emit {} "ghost" ⟨"progress", "", 0⟩ = {} ∧
    get ({} : StoreState) "ghost" = .error "ghost" ∧
    subscribe ({} : StoreState) "ghost" = .error "ghost" := by
  have h := emit_unknown_id_noop {} "ghost" ⟨"progress", "", 0⟩ rfl
  exact ⟨rfl, h.1, h.2.1, h.2.2⟩

/-- Claim C6 counterexample: the claim says the edge from queued directly
to failed never occurs. The create route does exactly that when enqueue
raises (routes_jobs.py lines 84-89): job a is queued right after create,
and calling fail on it moves it straight to failed, an edge outside the
claimed edge set. -/
theorem queued_to_failed_edge_cex :
    jobStatus stW "a" = some .queued ∧
    exceptStatus (fail 5 stW "a" "Queue is full. Try again shortly.") "a"
      = some .failed ∧
    (JobStatus.queued, JobStatus.failed) ∉ claimEdges := by
  refine ⟨rfl, rfl, ?_⟩
  decide

/-- Claim C6 amended: under the call discipline of the repository (the
spec's executor contract plus the create routes calling fail on a
still-queued job when the lane rejects it, and cancel at any time), every
status change is along queued to running, running to succeeded, running to
failed, queued to cancelled, or queued to failed; terminal states are
never left. -/
theorem protocol_edges_amended (r : JobRecord) (op : ProtoOp)
    (hAllowed : opAllowed r.status op = true)
    (hChange : (applyOp r op).status ≠ r.status) :
    (r.status, (applyOp r op).status) ∈ amendedEdges := by
  cases op with
  | startOp t =>
      have hq : r.status = .queued := by simpa [opAllowed] using hAllowed
      have h2 : (applyOp r (.startOp t)).status = .running := rfl
      rw [h2, hq]
      decide
  | progressOp c tot stg =>
      exact absurd rfl hChange
  | succeedOp t res =>
      have hq : r.status = .running := by simpa [opAllowed] using hAllowed
      have h2 : (applyOp r (.succeedOp t res)).status = .succeeded := rfl
      rw [h2, hq]
      decide
  | failOp t m =>
      have hq : r.status = .running ∨ r.status = .queued := by
        simpa [opAllowed] using hAllowed
      have h2 : (applyOp r (.failOp t m)).status = .failed := rfl
      rcases hq with hq | hq <;> rw [h2, hq] <;> decide
  | cancelOp t =>
      by_cases hq : r.status = .queued
      · have h2 : (applyOp r (.cancelOp t)).status = .cancelled := by
          simp [applyOp, cancelRec, hq]
        rw [h2, hq]
        decide
      · have h2 : (applyOp r (.cancelOp t)).status = r.status := by
          simp [applyOp, cancelRec, hq]
        exact absurd h2 hChange

/-- Claim C6 amended, witness: the queued record accepts fail (the
queue-full path), the status changes, and the resulting edge queued to
failed lies in the amended edge set. -/
theorem protocol_edges_amended_witness :
    opAllowed recQ.status (.failOp 5 "m") = true ∧
    (applyOp recQ (.failOp 5 "m")).status ≠ recQ.status ∧
    (recQ.status, (applyOp recQ (.failOp 5 "m")).status) ∈ amendedEdges := by
  exact ⟨by decide, by decide,
    protocol_edges_amended recQ (.failOp 5 "m") (by decide) (by decide)⟩

/-- Store with history cap 1 after the completed terminal event for job a
was emitted. -/
def stTerm : StoreState := emit stCap1 "a" ⟨"completed", "r", 1⟩

/-- Claim C3 counterexample: the claim says a terminal event, once
emitted, is always retained in the snapshot regardless of later emits. The
cap logic evicts the oldest events unconditionally: with a store built
with max_events_per_job 1, the completed event is in the snapshot right
after it is emitted, but one later progress emit evicts it. -/
theorem terminal_event_evicted_cex :
    list_events_snapshot stTerm "a" = [⟨"completed", "r", 1⟩] ∧
    list_events_snapshot (emit stTerm "a" ⟨"progress", "p1", 2⟩) "a"
      = [⟨"progress", "p1", 2⟩] ∧
    (⟨"completed", "r", 1⟩ : JobEvent)
      ∉ list_events_snapshot (emit stTerm "a" ⟨"progress", "p1", 2⟩) "a" := by
  refine ⟨rfl, rfl, ?_⟩
  decide

/-- Claim C3 amended: after any sequence of emits the retained history is
exactly the N most recent events with older events evicted first; terminal
events get no exemption from eviction. -/
theorem history_cap_last_n (N : Nat) (evs : List JobEvent) :
    List.foldl (emitHist N) [] evs = evs.drop (evs.length - N) := by
  have h := emitHist_foldl N evs [] (by simp)
  simpa using h

/-- An event emitted while the SSE generator is suspended between its
snapshot and its subscription. -/
def evW : JobEvent := ⟨"progress", "w", 1⟩

/-- An event emitted after the SSE subscription is registered. -/
def evL : JobEvent := ⟨"progress", "l", 2⟩

/-- Claim C5 counterexample: the claim says no event emitted between the
snapshot and the start of live delivery is omitted. list_events_snapshot
and subscribe are two separate lock acquisitions: the event evW emitted in
that window is recorded in the job's history, yet the delivered sequence
misses it entirely. -/
theorem snapshot_subscribe_gap_cex :
    evW ∈ list_events_snapshot (emitSeq stW "a" [evW]) "a" ∧
    evW ∉ sseDelivered stW "a" [evW] [evL] := by
  constructor
  · decide
  · decide

/-- Claim C5 amended: the consumer receives the history snapshot taken at
stream start (oldest to newest) followed by exactly the events emitted
after its subscription registers; no event is delivered twice, and the
events emitted in the window between the snapshot and the subscription are
omitted from delivery. -/
theorem sse_delivers_snapshot_then_live (st0 : StoreState) (jid : String)
    (r : JobRecord) (qs : List (List JobEvent)) (window live : List JobEvent)
    (hj : alistLookup jid st0.jobs = some r)
    (hs : alistLookup jid st0.subscribers = some qs) :
    sseDelivered st0 jid window live = list_events_snapshot st0 jid ++ live := by
  have hj1 : alistLookup jid (emitSeq st0 jid window).jobs = some r := by
    rw [emitSeq_jobs]
    exact hj
  obtain ⟨qs1, hqs1⟩ := emitSeq_subscribers_isSome jid window st0 qs hs
  have hj2 : alistLookup jid
      ({ emitSeq st0 jid window with
          subscribers := alistUpdate jid (fun qs0 => qs0 ++ [[]])
            (emitSeq st0 jid window).subscribers } : StoreState).jobs
      = some r := hj1
  have hs2 : alistLookup jid
      ({ emitSeq st0 jid window with
          subscribers := alistUpdate jid (fun qs0 => qs0 ++ [[]])
            (emitSeq st0 jid window).subscribers } : StoreState).subscribers
      = some (qs1 ++ [[]]) := by
    have h0 : ({ emitSeq st0 jid window with
        subscribers := alistUpdate jid (fun qs0 => qs0 ++ [[]])
          (emitSeq st0 jid window).subscribers } : StoreState).subscribers
        = alistUpdate jid (fun qs0 => qs0 ++ [[]])
            (emitSeq st0 jid window).subscribers := rfl
    rw [h0, alistLookup_update_self, hqs1]
    rfl
  have hq2 : (qs1 ++ [([] : List JobEvent)])[qs1.length]? = some [] := by
    simp
  obtain ⟨qs2, hqs2, hget⟩ :=
    emitSeq_subscriberQueue jid live _ r (qs1 ++ [[]]) qs1.length [] hj2 hs2 hq2
  simp only [sseDelivered, subscribe, hj1, hqs1, Option.getD_some]
  unfold subscriberQueue
  rw [hqs2]
  simp [hget]

/-- Claim C5 amended, witness: on the store holding the freshly created
job a, streaming with window event evW and live event evL delivers the
snapshot followed by evL alone. -/
theorem sse_delivers_snapshot_then_live_witness :
    alistLookup "a" stW.jobs = some (create 0 "a" .img2img "p" {}).2 ∧
    alistLookup "a" stW.subscribers = some [] ∧
    sseDelivered stW "a" [evW] [evL] = list_events_snapshot stW "a" ++ [evL] := by
  refine ⟨rfl, rfl, ?_⟩
  exact sse_delivers_snapshot_then_live stW "a" (create 0 "a" .img2img "p" {}).2
    [] [evW] [evL] rfl rfl

/-- Claim C9: cleanup_expired removes exactly the terminal jobs whose
ended_at lies more than ttl before now (their state, subscriber set and
history entries are popped under the same lock), never removes a
non-terminal job, and returns the number of jobs removed. -/
theorem cleanup_expired_exact (now : Int) (st : StoreState)
    (hnd : (st.jobs.map Prod.fst).Nodup) :
    (cleanup_expired now st).2
        = (st.jobs.filter (fun p => isExpiredJob now st.ttl_seconds p.2)).length ∧
    (∀ jid r, (jid, r) ∈ st.jobs →
        ((jid, r) ∈ (cleanup_expired now st).1.jobs ↔
          isExpiredJob now st.ttl_seconds r = false)) ∧
    (∀ jid r, (jid, r) ∈ st.jobs → isTerminal r.status = false →
        (jid, r) ∈ (cleanup_expired now st).1.jobs) := by
  have hjobs : (cleanup_expired now st).1.jobs
      = st.jobs.filter (fun p =>
          !(((st.jobs.filter
                (fun p0 => isExpiredJob now st.ttl_seconds p0.2)).map
              Prod.fst).contains p.1)) := rfl
  have hIff : ∀ jid r, (jid, r) ∈ st.jobs →
      ((jid, r) ∈ (cleanup_expired now st).1.jobs ↔
        isExpiredJob now st.ttl_seconds r = false) := by
    intro jid r hin
    have hremoved : jid ∈ (st.jobs.filter
          (fun p0 => isExpiredJob now st.ttl_seconds p0.2)).map Prod.fst ↔
        isExpiredJob now st.ttl_seconds r = true := by
      constructor
      · intro h
        obtain ⟨⟨a, b⟩, hp, hfst⟩ := List.mem_map.mp h
        obtain ⟨hmem, hexp⟩ := List.mem_filter.mp hp
        have ha : a = jid := hfst
        subst ha
        have hrb : b = r := assoc_keys_unique hnd hmem hin
        rw [← hrb]
        exact hexp
      · intro h
        exact List.mem_map.mpr ⟨(jid, r), List.mem_filter.mpr ⟨hin, h⟩, rfl⟩
    rw [hjobs]
    constructor
    · intro hmem2
      obtain ⟨_, hflag⟩ := List.mem_filter.mp hmem2
      have hnotin : jid ∉ (st.jobs.filter
          (fun p0 => isExpiredJob now st.ttl_seconds p0.2)).map Prod.fst := by
        simpa using hflag
      cases hx : isExpiredJob now st.ttl_seconds r with
      | false => rfl
      | true => exact absurd (hremoved.mpr hx) hnotin
    · intro hflag
      apply List.mem_filter.mpr
      refine ⟨hin, ?_⟩
      have hnotin : jid ∉ (st.jobs.filter
          (fun p0 => isExpiredJob now st.ttl_seconds p0.2)).map Prod.fst := by
        intro hj
        rw [hremoved.mp hj] at hflag
        cases hflag
      simpa using hnotin
  refine ⟨by simp [cleanup_expired], hIff, ?_⟩
  intro jid r hin hterm
  exact (hIff jid r hin).mpr (by simp [isExpiredJob, hterm])

/-- Claim C9 witness: in a store holding the long-expired succeeded job
old and the running job new, cleanup at time 10000 with the default ttl of
3600 removes exactly old, keeps new, and reports one removal. -/
theorem cleanup_expired_exact_witness :
    (stC9.jobs.map Prod.fst).Nodup ∧
    (cleanup_expired 10000 stC9).2 = 1 ∧
    (("old", oldRec) ∈ (cleanup_expired 10000 stC9).1.jobs ↔
      isExpiredJob 10000 stC9.ttl_seconds oldRec = false) ∧
    ("new", freshRec) ∈ (cleanup_expired 10000 stC9).1.jobs := by
  have h := cleanup_expired_exact 10000 stC9 (by decide)
  refine ⟨by decide, ?_, ?_, ?_⟩
  · rw [h.1]
    decide
  · exact h.2.1 "old" oldRec (by decide)
  · exact h.2.2 "new" freshRec (by decide) (by decide)

end SvelteNodes
